import Mathlib

/-!
Shallow embedding of `src/index.ts` of the `local-dynamodb-ttl` repository.

The program is a TTL-eviction loop against a DynamoDB-compatible store:
it resolves the table's key schema (retrying while the table does not
exist), then forever scans for items whose TTL attribute is numerically
below the current epoch seconds and deletes each returned item by its key.

The DynamoDB client is modelled as explicit response oracles passed to each
function; JavaScript exceptions become `Except AppError`; JavaScript
truthiness checks (`!value`, `if (keySchema.range)`, `!response.Items`)
are translated explicitly (the empty string is falsy, an empty array is
truthy, `undefined` is falsy).
-/

namespace LocalDynamoTTL

/-- Environment-variable map, the embedding of `process.env`. -/
abbrev Env := String → Option String

/-- DynamoDB attribute value: `N` holds a numeric value (the stored decimal
string, read as an integer), `S` a string, `B` binary data. -/
inductive AttributeValue where
  | N (v : Int)
  | S (s : String)
  | B (b : String)
deriving DecidableEq

/-- An item stored in the table: a map from attribute name to value
(`Record<string, AttributeValue>` on the TypeScript side). -/
abbrev Item := List (String × AttributeValue)

/-- A key record produced for deletion. Values are `Option AttributeValue`
because JavaScript indexing `i[name]` yields `undefined` when the item
lacks the attribute. -/
abbrev ItemKey := List (String × Option AttributeValue)

/-- First-match lookup of an attribute in an item, the embedding of
`i[name]` on a plain object. -/
def lookupAttr (i : Item) (name : String) : Option AttributeValue :=
  match i with
  | [] => none
  | (n, v) :: rest => if n = name then some v else lookupAttr rest name

/-- Errors thrown by the program or by the client.
`missingEnv` embeds the `Error` thrown by `getRequiredEnvironmentVariable`;
`resourceNotFound` embeds the SDK's `ResourceNotFoundException`;
`transportError` stands for any other failure thrown by `client.send`;
the remaining constructors embed the `Error`s thrown at the explicit
status / shape checks in `index.ts`. -/
inductive AppError where
  | missingEnv (name : String)
  | resourceNotFound
  | transportError (code : Nat)
  | describeFailed
  | noKeySchema
  | scanFailed
  | deleteFailed (key : ItemKey)
deriving DecidableEq

/-- Message of the error thrown for a missing environment variable
(source line: `You must configure the '${name}' environment variable!`). -/
def missingConfigurationMessage (name : String) : String :=
  "You must configure the \x27" ++ name ++ "\x27 environment variable!"

/-- Embedding of `getRequiredEnvironmentVariable`: throws when the value is
absent or empty (`!value` is true for `undefined` and for `""`). -/
def getRequiredEnvironmentVariable (env : Env) (name : String) :
    Except AppError String :=
  match env name with
  | none => .error (.missingEnv name)
  | some v => if v = "" then .error (.missingEnv name) else .ok v

/-- Configuration handed to `new DynamoDBClient({...})` at module load. -/
structure ClientConfig where
  endpoint : String
  region : Option String
deriving DecidableEq

/-- Embedding of the module-level client construction: the endpoint goes
through `getRequiredEnvironmentVariable('AWS_ENDPOINT')`, the region is
read as plain `process.env.AWS_REGION` with no requiredness check. -/
def clientConfig (env : Env) : Except AppError ClientConfig :=
  match getRequiredEnvironmentVariable env "AWS_ENDPOINT" with
  | .error e => .error e
  | .ok endpoint => .ok { endpoint := endpoint, region := env "AWS_REGION" }

/-- The `$metadata` portion of an SDK response. -/
structure ResponseMetadata where
  httpStatusCode : Option Nat
deriving DecidableEq

/-- A single `ScanFilter` condition. -/
structure Condition where
  comparisonOperator : String
  attributeValueList : List AttributeValue
deriving DecidableEq

/-- The `ScanCommand` input built by `getExpiredItemKeys`. -/
structure ScanRequest where
  tableName : String
  scanFilter : List (String × Condition)
deriving DecidableEq

/-- Response to a scan: status metadata and an optional list of items. -/
structure ScanResponse where
  metadata : ResponseMetadata
  Items : Option (List Item)

/-- The scan request the source constructs: a single `LT` condition on the
TTL attribute against the current epoch seconds. -/
def builtScanRequest (tableName ttlAttribute : String) (now : Int) :
    ScanRequest :=
  { tableName := tableName
    scanFilter :=
      [(ttlAttribute,
        { comparisonOperator := "LT", attributeValueList := [.N now] })] }

/-- The `KeySchema` interface of the source: a required hash attribute name
and an optional range attribute name. -/
structure KeySchema where
  hash : String
  range : Option String
deriving DecidableEq

/-- The honest runtime shape of what `getTableKeySchema` returns: the
source builds a `Partial<KeySchema>` and casts it with `as KeySchema`,
a no-op at runtime, so `hash` may in fact be absent. -/
structure KeySchemaDraft where
  hash : Option String
  range : Option String
deriving DecidableEq

/-- Embedding of the `as KeySchema` cast combined with downstream use:
when `hash` is `undefined`, a JavaScript computed property name coerces it
to the string `"undefined"`. -/
def KeySchemaDraft.cast (d : KeySchemaDraft) : KeySchema :=
  { hash := d.hash.getD "undefined", range := d.range }

/-- Projection of a scanned item to its key record, the body of the `map`
in `getExpiredItemKeys`: always the hash attribute, plus the range
attribute when `keySchema.range` is truthy (present and non-empty). -/
def projectKey (keySchema : KeySchema) (i : Item) : ItemKey :=
  let record : ItemKey := [(keySchema.hash, lookupAttr i keySchema.hash)]
  match keySchema.range with
  | none => record
  | some r =>
    if r = "" then record else record ++ [(r, lookupAttr i r)]

/-- Embedding of `getExpiredItemKeys`: reads `TABLE_NAME` and
`TTL_ATTRIBUTE`, sends the filtered scan, throws on a non-200 status,
returns `none` when `Items` is absent (an empty `Items` array is truthy
and is mapped like any other), else maps each item to its key record. -/
def getExpiredItemKeys (env : Env) (keySchema : KeySchema) (now : Int)
    (send : ScanRequest → ScanResponse) :
    Except AppError (Option (List ItemKey)) :=
  match getRequiredEnvironmentVariable env "TABLE_NAME" with
  | .error e => .error e
  | .ok tableName =>
    match getRequiredEnvironmentVariable env "TTL_ATTRIBUTE" with
    | .error e => .error e
    | .ok ttlAttribute =>
      let response := send (builtScanRequest tableName ttlAttribute now)
      if response.metadata.httpStatusCode ≠ some 200 then
        .error .scanFailed
      else
        match response.Items with
        | none => .ok none
        | some items => .ok (some (items.map (projectKey keySchema)))

/-- Specification-side predicate: the item's TTL attribute holds a numeric
value strictly below the given time; missing or non-numeric values fail. -/
def ttlExpired (ttlAttribute : String) (now : Int) (i : Item) : Bool :=
  match lookupAttr i ttlAttribute with
  | some (.N v) => v < now
  | _ => false

/-- Modelled from the spec: the store's evaluation of one scan-filter
condition — a numeric `LT` comparison holds only when both the stored
value and the comparison operand are numeric; a missing or non-numeric
attribute is excluded by the comparison itself. -/
def evalCondition (c : Condition) (v : Option AttributeValue) : Bool :=
  if c.comparisonOperator = "LT" then
    match c.attributeValueList, v with
    | [.N threshold], some (.N x) => x < threshold
    | _, _ => false
  else false

/-- Modelled from the spec: a scan filter holds when every named condition
holds of the item's value at that attribute. -/
def evalScanFilter (filter : List (String × Condition)) (i : Item) : Bool :=
  filter.all fun c => evalCondition c.2 (lookupAttr i c.1)

/-- Modelled from the spec: the store's filtered full-table scan keeps
exactly the items satisfying the filter. -/
def storeScan (table : List Item) (req : ScanRequest) : List Item :=
  table.filter fun i => evalScanFilter req.scanFilter i

/-- A store that answers a scan honestly with status 200 and the filtered
contents of `table`. -/
def honestScanSend (table : List Item) (req : ScanRequest) : ScanResponse :=
  { metadata := { httpStatusCode := some 200 }
    Items := some (storeScan table req) }

/-- One entry of a table's `AttributeDefinitions`. -/
structure AttributeDefinition where
  AttributeName : String
  AttributeType : Option String
deriving DecidableEq

/-- One entry of a table's `KeySchema`; `KeyType` is the wire string
(`"HASH"`, `"RANGE"`, or anything else). -/
structure KeySchemaElement where
  AttributeName : String
  KeyType : String
deriving DecidableEq

/-- The `Table` portion of a describe-table response. -/
structure TableDescription where
  KeySchema : Option (List KeySchemaElement)
  AttributeDefinitions : Option (List AttributeDefinition)
deriving DecidableEq

/-- A describe-table response: status metadata and optional table data. -/
structure DescribeTableResponse where
  metadata : ResponseMetadata
  Table : Option TableDescription
deriving DecidableEq

/-- Embedding of `AttributeDefinitions?.find(...)` on the element's name. -/
def findAttributeDefinition (defs : Option (List AttributeDefinition))
    (name : String) : Option AttributeDefinition :=
  match defs with
  | none => none
  | some ds => ds.find? fun d => d.AttributeName == name

/-- An element has a usable attribute definition: one is found by name and
its `AttributeType` is truthy (present and non-empty). -/
def hasTypedDef (defs : Option (List AttributeDefinition))
    (e : KeySchemaElement) : Bool :=
  match findAttributeDefinition defs e.AttributeName with
  | none => false
  | some d =>
    match d.AttributeType with
    | none => false
    | some t => t ≠ ""

/-- Loop body of `getTableKeySchema`: skip an element without a usable
attribute definition (warn and continue), otherwise classify it by its
`KeyType`, skipping anything that is neither `HASH` nor `RANGE`. -/
def classifyEntry (defs : Option (List AttributeDefinition))
    (acc : KeySchemaDraft) (e : KeySchemaElement) : KeySchemaDraft :=
  match findAttributeDefinition defs e.AttributeName with
  | none => acc
  | some d =>
    match d.AttributeType with
    | none => acc
    | some t =>
      if t = "" then acc
      else if e.KeyType = "HASH" then { acc with hash := some e.AttributeName }
      else if e.KeyType = "RANGE" then { acc with range := some e.AttributeName }
      else acc

/-- Embedding of `getTableKeySchema`: reads `TABLE_NAME`, sends the
describe request (the oracle `resp` also models `client.send` throwing),
throws on a non-200 status or missing `Table`, throws a distinct error
when `Table.KeySchema` is absent (an empty array is truthy and passes),
then folds the classification loop over the entries. -/
def getTableKeySchema (env : Env)
    (resp : Except AppError DescribeTableResponse) :
    Except AppError KeySchemaDraft :=
  match getRequiredEnvironmentVariable env "TABLE_NAME" with
  | .error e => .error e
  | .ok _ =>
    match resp with
    | .error e => .error e
    | .ok response =>
      if response.metadata.httpStatusCode ≠ some 200 then .error .describeFailed
      else
        match response.Table with
        | none => .error .describeFailed
        | some tbl =>
          match tbl.KeySchema with
          | none => .error .noKeySchema
          | some entries =>
            .ok (entries.foldl (classifyEntry tbl.AttributeDefinitions)
              { hash := none, range := none })

/-- Response to a delete-item request. -/
structure DeleteResponse where
  metadata : ResponseMetadata
deriving DecidableEq

/-- Worker for `deleteItems`: `send j` is the store's response to the
`j`-th delete request issued (counting from 0 across the whole batch).
Returns the list of key records actually sent, in order, together with
the outcome. The request is issued before its status is checked, so a
failing request appears in the trace; later keys are never attempted. -/
def deleteItemsAux (env : Env) (send : Nat → DeleteResponse) :
    Nat → List ItemKey → List ItemKey × Except AppError Unit
  | _, [] => ([], .ok ())
  | j, key :: rest =>
    match getRequiredEnvironmentVariable env "TABLE_NAME" with
    | .error e => ([], .error e)
    | .ok _ =>
      if (send j).metadata.httpStatusCode ≠ some 200 then
        ([key], .error (.deleteFailed key))
      else
        let r := deleteItemsAux env send (j + 1) rest
        (key :: r.1, r.2)

/-- Embedding of `deleteItems`: sequential deletes, aborting at the first
non-200 response. -/
def deleteItems (env : Env) (send : Nat → DeleteResponse)
    (keys : List ItemKey) : List ItemKey × Except AppError Unit :=
  deleteItemsAux env send 0 keys

/-- Observable events of a run of `main`, used to state ordering claims. -/
inductive Event where
  | describe
  | scan
  | deleteReq (key : ItemKey)
  | sleepEv
deriving DecidableEq

/-- Outcome of the resolution loop at the top of `main`. -/
inductive ResolveOutcome where
  | resolved (ks : KeySchemaDraft)
  | fatal (e : AppError)
  | pending
deriving DecidableEq

/-- Embedding of the `do ... while (!keySchema)` loop of `main`, driven by
the list of successive describe outcomes: a success resolves; a
`ResourceNotFoundException` logs, sleeps and retries; any other error is
rethrown. `pending` means the oracle ran out while the loop was still
retrying (the real loop would keep going). -/
def resolveLoop (env : Env) :
    List (Except AppError DescribeTableResponse) → List Event × ResolveOutcome
  | [] => ([], .pending)
  | resp :: rest =>
    match getTableKeySchema env resp with
    | .ok ks => ([.describe], .resolved ks)
    | .error .resourceNotFound =>
      let r := resolveLoop env rest
      (.describe :: .sleepEv :: r.1, r.2)
    | .error e => ([.describe], .fatal e)

/-- Store oracle for one iteration of the steady-state loop. -/
structure CycleOracle where
  now : Int
  scanSend : ScanRequest → ScanResponse
  deleteSend : Nat → DeleteResponse

/-- Embedding of one iteration of the `while (true)` loop of `main`: scan,
then — because any returned array, including an empty one, is truthy —
delete every returned key record; `undefined` logs and deletes nothing. -/
def runCycle (env : Env) (keySchema : KeySchema) (o : CycleOracle) :
    List Event × Except AppError Unit :=
  match getExpiredItemKeys env keySchema o.now o.scanSend with
  | .error e => ([.scan], .error e)
  | .ok none => ([.scan], .ok ())
  | .ok (some keys) =>
    let d := deleteItems env o.deleteSend keys
    (.scan :: d.1.map Event.deleteReq, d.2)

/-- Fuel-indexed embedding of the steady-state loop: one oracle per
iteration; an error terminates the run, otherwise sleep and continue.
Exhausted fuel ends the run without error (the real loop never exits). -/
def runCycles (env : Env) (keySchema : KeySchema) :
    List CycleOracle → List Event × Except AppError Unit
  | [] => ([], .ok ())
  | o :: os =>
    let c := runCycle env keySchema o
    match c.2 with
    | .error e => (c.1, .error e)
    | .ok _ =>
      let r := runCycles env keySchema os
      (c.1 ++ Event.sleepEv :: r.1, r.2)

/-- Embedding of `main`: resolve the key schema first (retrying on
not-found), then run the steady-state loop with the resolved schema. -/
def mainRun (env : Env)
    (describeResponses : List (Except AppError DescribeTableResponse))
    (cycles : List CycleOracle) : List Event × Except AppError Unit :=
  match resolveLoop env describeResponses with
  | (evs, .resolved ks) =>
    let c := runCycles env ks.cast cycles
    (evs ++ c.1, c.2)
  | (evs, .fatal e) => (evs, .error e)
  | (evs, .pending) => (evs, .ok ())

/-! Concrete data used by the witnesses, taken from the end-to-end
scenario of the spec (partition key `id`, TTL attribute `Expires`,
items `a` expired and `b` not, current time 2000). -/

/-- A fully populated environment. -/
def envA : Env := fun n =>
  if n = "AWS_ENDPOINT" then some "http://localstack:4566"
  else if n = "AWS_REGION" then some "ap-southeast-2"
  else if n = "TABLE_NAME" then some "ddb"
  else if n = "TTL_ATTRIBUTE" then some "Expires"
  else none

/-- An environment with every variable absent. -/
def envEmpty : Env := fun _ => none

/-- An environment lacking only `AWS_REGION`. -/
def envNoRegion : Env := fun n =>
  if n = "AWS_ENDPOINT" then some "http://localstack:4566"
  else if n = "TABLE_NAME" then some "ddb"
  else if n = "TTL_ATTRIBUTE" then some "Expires"
  else none

/-- Simple-key descriptor on `id`. -/
def ksId : KeySchema := { hash := "id", range := none }

/-- The spec's scenario table: item `a` expired at 100, item `b` far in
the future. -/
def tableAB : List Item :=
  [[("id", .S "a"), ("Expires", .N 100)],
   [("id", .S "b"), ("Expires", .N 9999999999)]]

/-- The scenario table restricted to the unexpired item. -/
def tableB : List Item :=
  [[("id", .S "b"), ("Expires", .N 9999999999)]]

/-- A delete oracle that always succeeds. -/
def deleteOk : Nat → DeleteResponse :=
  fun _ => { metadata := { httpStatusCode := some 200 } }

/-- A describe response whose table declares an empty key schema list. -/
def emptySchemaResponse : DescribeTableResponse :=
  { metadata := { httpStatusCode := some 200 }
    Table := some { KeySchema := some [], AttributeDefinitions := some [] } }

/-- A describe response whose table declares no key schema at all. -/
def noSchemaResponse : DescribeTableResponse :=
  { metadata := { httpStatusCode := some 200 }
    Table := some { KeySchema := none, AttributeDefinitions := some [] } }

/-- Key-schema entries of a well-formed composite-key table. -/
def compositeEntries : List KeySchemaElement :=
  [{ AttributeName := "id", KeyType := "HASH" },
   { AttributeName := "ts", KeyType := "RANGE" }]

/-- Table data of a well-formed composite-key table. -/
def compositeTbl : TableDescription :=
  { KeySchema := some compositeEntries
    AttributeDefinitions := some
      [{ AttributeName := "id", AttributeType := some "S" },
       { AttributeName := "ts", AttributeType := some "N" }] }

/-- A well-formed describe response for a composite-key table. -/
def compositeResponse : DescribeTableResponse :=
  { metadata := { httpStatusCode := some 200 }
    Table := some compositeTbl }

/-- A cycle oracle whose honest store holds only the unexpired item, so the
scan returns an empty list. -/
def oracleEmptyScan : CycleOracle :=
  { now := 2000, scanSend := honestScanSend tableB, deleteSend := deleteOk }

/-- Three key records for exercising the deleter. -/
def keys3 : List ItemKey :=
  [[("id", some (.S "a"))], [("id", some (.S "b"))], [("id", some (.S "c"))]]

/-- A delete oracle that fails (status 500) on the second request only. -/
def deleteFailAt1 : Nat → DeleteResponse :=
  fun j =>
    if j = 1 then { metadata := { httpStatusCode := some 500 } }
    else { metadata := { httpStatusCode := some 200 } }

/-- A scan oracle that always answers with status 500 and no items. -/
def scanSend500 : ScanRequest → ScanResponse :=
  fun _ => { metadata := { httpStatusCode := some 500 }, Items := none }

/-! ### Helper lemmas -/

theorem evalScanFilter_built (t a : String) (now : Int) (i : Item) :
    evalScanFilter (builtScanRequest t a now).scanFilter i = ttlExpired a now i := by
  simp only [evalScanFilter, builtScanRequest, List.all_cons, List.all_nil,
    Bool.and_true, evalCondition, ttlExpired]
  cases h : lookupAttr i a with
  | none => simp
  | some v => cases v <;> simp

theorem getExpiredItemKeys_honest (env : Env) (tn a : String)
    (hT : getRequiredEnvironmentVariable env "TABLE_NAME" = .ok tn)
    (hA : getRequiredEnvironmentVariable env "TTL_ATTRIBUTE" = .ok a)
    (keySchema : KeySchema) (table : List Item) (now : Int) :
    getExpiredItemKeys env keySchema now (honestScanSend table) =
      .ok (some ((table.filter (ttlExpired a now)).map (projectKey keySchema))) := by
  simp only [getExpiredItemKeys, hT, hA, honestScanSend, storeScan]
  simp only [ne_eq, not_true_eq_false, if_false, reduceIte]
  have hf : (fun i => evalScanFilter (builtScanRequest tn a now).scanFilter i) =
      ttlExpired a now := by
    funext i; exact evalScanFilter_built tn a now i
  rw [hf]

theorem getExpiredItemKeys_ok_some (env : Env) (keySchema : KeySchema)
    (now : Int) (send : ScanRequest → ScanResponse) (keys : List ItemKey)
    (h : getExpiredItemKeys env keySchema now send = .ok (some keys)) :
    ∃ items : List Item, keys = items.map (projectKey keySchema) := by
  simp only [getExpiredItemKeys] at h
  split at h
  · exact Except.noConfusion h
  · split at h
    · exact Except.noConfusion h
    · split at h
      · exact Except.noConfusion h
      · split at h
        · exact Option.noConfusion (Except.ok.inj h)
        · exact ⟨_, (Option.some.inj (Except.ok.inj h)).symm⟩

/-- The events of the resolution loop never include a scan. -/
theorem resolveLoop_no_scan (env : Env) (rs : List (Except AppError DescribeTableResponse)) :
    Event.scan ∉ (resolveLoop env rs).1 := by
  induction rs with
  | nil => simp [resolveLoop]
  | cons r rest ih =>
    cases hg : getTableKeySchema env r with
    | ok ks => simp [resolveLoop, hg]
    | error e => cases e <;> simp_all [resolveLoop, hg]

/-! ### Claim theorems -/

/-- C1: in every scan cycle (against a store that answers the filtered scan
honestly), the produced result is exactly the projection of the items whose
TTL attribute value is numeric and strictly less than the current epoch
seconds; an item whose TTL value is numeric but not below the current time,
or whose TTL value is missing or non-numeric, is excluded. -/
theorem scan_filter_includes_exactly_expired (env : Env) (tn a : String)
    (hT : getRequiredEnvironmentVariable env "TABLE_NAME" = .ok tn)
    (hA : getRequiredEnvironmentVariable env "TTL_ATTRIBUTE" = .ok a)
    (keySchema : KeySchema) (table : List Item) (now : Int) :
    getExpiredItemKeys env keySchema now (honestScanSend table) =
      .ok (some ((table.filter (ttlExpired a now)).map (projectKey keySchema))) ∧
    (∀ i ∈ table,
       (i ∈ table.filter (ttlExpired a now) ↔
         ∃ v, lookupAttr i a = some (.N v) ∧ v < now)) ∧
    (∀ i ∈ table, (∃ v, lookupAttr i a = some (.N v) ∧ v < now) →
       projectKey keySchema i ∈
         (table.filter (ttlExpired a now)).map (projectKey keySchema)) := by
  have hmem : ∀ i ∈ table,
      (i ∈ table.filter (ttlExpired a now) ↔
        ∃ v, lookupAttr i a = some (.N v) ∧ v < now) := by
    intro i hi
    rw [List.mem_filter]
    constructor
    · rintro ⟨-, hp⟩
      unfold ttlExpired at hp
      cases h : lookupAttr i a with
      | none => rw [h] at hp; cases hp
      | some v =>
        cases v with
        | N x => exact ⟨x, rfl, by rw [h] at hp; simpa using hp⟩
        | S s => rw [h] at hp; cases hp
        | B b => rw [h] at hp; cases hp
    · rintro ⟨v, hv, hlt⟩
      exact ⟨hi, by unfold ttlExpired; rw [hv]; simpa using hlt⟩
  refine ⟨getExpiredItemKeys_honest env tn a hT hA keySchema table now, hmem, ?_⟩
  intro i hi hexp
  exact List.mem_map_of_mem _ ((hmem i hi).mpr hexp)

theorem scan_filter_includes_exactly_expired_witness :
    getRequiredEnvironmentVariable envA "TABLE_NAME" = .ok "ddb" ∧
    getRequiredEnvironmentVariable envA "TTL_ATTRIBUTE" = .ok "Expires" ∧
    (getExpiredItemKeys envA ksId 2000 (honestScanSend tableAB) =
      .ok (some ((tableAB.filter (ttlExpired "Expires" 2000)).map (projectKey ksId))) ∧
    (∀ i ∈ tableAB,
       (i ∈ tableAB.filter (ttlExpired "Expires" 2000) ↔
         ∃ v, lookupAttr i "Expires" = some (.N v) ∧ v < 2000)) ∧
    (∀ i ∈ tableAB, (∃ v, lookupAttr i "Expires" = some (.N v) ∧ v < 2000) →
       projectKey ksId i ∈
         (tableAB.filter (ttlExpired "Expires" 2000)).map (projectKey ksId))) :=
  ⟨rfl, rfl,
   scan_filter_includes_exactly_expired envA "ddb" "Expires" rfl rfl ksId tableAB 2000⟩

/-- C4: every key record produced by the scan names exactly the key
attributes of the KeyDescriptor — the partition attribute, plus the sort
attribute exactly when one is declared — and no other attribute name of
the item appears in it. -/
theorem itemKey_projection_only_key_attributes (env : Env) (keySchema : KeySchema)
    (now : Int) (send : ScanRequest → ScanResponse) (keys : List ItemKey)
    (hr : keySchema.range ≠ some "")
    (h : getExpiredItemKeys env keySchema now send = .ok (some keys)) :
    ∀ key ∈ keys,
      key.map Prod.fst = keySchema.hash :: keySchema.range.toList ∧
      ∀ p ∈ key, p.1 = keySchema.hash ∨ keySchema.range = some p.1 := by
  obtain ⟨items, hkeys⟩ := getExpiredItemKeys_ok_some env keySchema now send keys h
  subst hkeys
  intro key hk
  obtain ⟨i, hi, hki⟩ := List.mem_map.mp hk
  subst hki
  cases hR : keySchema.range with
  | none =>
    simp only [projectKey, hR]
    refine ⟨by simp, ?_⟩
    intro p hp
    simp only [List.mem_singleton] at hp
    subst hp
    exact Or.inl rfl
  | some r =>
    have hr' : r ≠ "" := fun h' => hr (by rw [hR, h'])
    simp only [projectKey, hR, if_neg hr']
    refine ⟨by simp, ?_⟩
    intro p hp
    simp only [List.cons_append, List.nil_append, List.mem_cons,
      List.mem_singleton, List.not_mem_nil, or_false] at hp
    rcases hp with hp | hp
    · subst hp; exact Or.inl rfl
    · subst hp; exact Or.inr rfl

theorem itemKey_projection_only_key_attributes_witness :
    ksId.range ≠ some "" ∧
    getExpiredItemKeys envA ksId 2000 (honestScanSend tableAB) =
      .ok (some [[("id", some (AttributeValue.S "a"))]]) ∧
    ∀ key ∈ [[("id", some (AttributeValue.S "a"))]],
      key.map Prod.fst = ksId.hash :: ksId.range.toList ∧
      ∀ p ∈ key, p.1 = ksId.hash ∨ ksId.range = some p.1 :=
  ⟨by simp [ksId], rfl,
   itemKey_projection_only_key_attributes envA ksId 2000 (honestScanSend tableAB)
     [[("id", some (AttributeValue.S "a"))]] (by simp [ksId]) rfl⟩

/-- C7 counterexample: with `AWS_REGION` absent but the other variables
present, the client configuration is constructed successfully — the
process does not terminate, refuting the claim for the region value
(the source reads `process.env.AWS_REGION` without a requiredness check). -/
theorem region_absent_no_termination_cex :
    envNoRegion "AWS_REGION" = none ∧
    clientConfig envNoRegion =
      .ok { endpoint := "http://localstack:4566", region := none } :=
  ⟨rfl, rfl⟩

/-- C7 amended: a missing endpoint, table name or TTL attribute name is
fatal at its point of use, with an error naming the missing variable and
carrying the message that names it; the region, by contrast, is passed
through unvalidated. -/
theorem missing_config_fatal_except_region (env : Env) (name : String) :
    (env "AWS_ENDPOINT" = none →
      clientConfig env = .error (.missingEnv "AWS_ENDPOINT")) ∧
    (env name = none →
      getRequiredEnvironmentVariable env name = .error (.missingEnv name)) ∧
    (∀ c, clientConfig env = .ok c → c.region = env "AWS_REGION") ∧
    missingConfigurationMessage name =
      "You must configure the \x27" ++ name ++ "\x27 environment variable!" := by
  refine ⟨?_, ?_, ?_, rfl⟩
  · intro h
    simp [clientConfig, getRequiredEnvironmentVariable, h]
  · intro h
    simp [getRequiredEnvironmentVariable, h]
  · intro c hc
    unfold clientConfig at hc
    cases hE : getRequiredEnvironmentVariable env "AWS_ENDPOINT" with
    | error e => rw [hE] at hc; exact Except.noConfusion hc
    | ok v =>
      rw [hE] at hc
      cases Except.ok.inj hc
      rfl

theorem missing_config_fatal_except_region_witness :
    envEmpty "AWS_ENDPOINT" = none ∧ envEmpty "TABLE_NAME" = none ∧
    clientConfig envEmpty = .error (.missingEnv "AWS_ENDPOINT") ∧
    getRequiredEnvironmentVariable envEmpty "TABLE_NAME" =
      .error (.missingEnv "TABLE_NAME") :=
  ⟨rfl, rfl, (missing_config_fatal_except_region envEmpty "TABLE_NAME").1 rfl,
   (missing_config_fatal_except_region envEmpty "TABLE_NAME").2.1 rfl⟩

/-- C10: the deleter applied to the empty key sequence issues zero delete
requests and succeeds, and a cycle whose scan returns an empty item list
invokes the deleter on it and produces no delete event. -/
theorem deleteItems_empty_identity (env : Env) (keySchema : KeySchema)
    (dsend : Nat → DeleteResponse) :
    deleteItems env dsend [] = ([], .ok ()) ∧
    ∀ o : CycleOracle,
      getExpiredItemKeys env keySchema o.now o.scanSend = .ok (some []) →
      runCycle env keySchema o = ([Event.scan], .ok ()) := by
  refine ⟨rfl, ?_⟩
  intro o h
  simp [runCycle, h, deleteItems, deleteItemsAux]

theorem deleteItems_empty_identity_witness :
    getExpiredItemKeys envA ksId oracleEmptyScan.now oracleEmptyScan.scanSend =
      .ok (some []) ∧
    runCycle envA ksId oracleEmptyScan = ([Event.scan], .ok ()) :=
  ⟨rfl, (deleteItems_empty_identity envA ksId deleteOk).2 oracleEmptyScan rfl⟩

theorem deleteItemsAux_all_ok (env : Env) (tn : String)
    (hT : getRequiredEnvironmentVariable env "TABLE_NAME" = .ok tn)
    (send : Nat → DeleteResponse) (keys : List ItemKey) : ∀ j : Nat,
    (∀ m, m < keys.length → (send (j + m)).metadata.httpStatusCode = some 200) →
    deleteItemsAux env send j keys = (keys, .ok ()) := by
  induction keys with
  | nil => intro j _; rfl
  | cons key rest ih =>
    intro j h
    have h0 := h 0 (by simp)
    simp only [Nat.add_zero] at h0
    have hrest : ∀ m, m < rest.length →
        (send (j + 1 + m)).metadata.httpStatusCode = some 200 := by
      intro m hm
      have heq : j + 1 + m = j + (m + 1) := by omega
      rw [heq]
      exact h (m + 1) (by simpa using Nat.succ_lt_succ hm)
    simp only [deleteItemsAux, hT, h0, ne_eq, not_true_eq_false, if_false,
      reduceIte, ih (j + 1) hrest]

theorem deleteItemsAux_fail (env : Env) (tn : String)
    (hT : getRequiredEnvironmentVariable env "TABLE_NAME" = .ok tn)
    (send : Nat → DeleteResponse) (keys : List ItemKey) : ∀ (j m : Nat),
    m < keys.length →
    (∀ p, p < m → (send (j + p)).metadata.httpStatusCode = some 200) →
    (send (j + m)).metadata.httpStatusCode ≠ some 200 →
    (deleteItemsAux env send j keys).1 = keys.take (m + 1) ∧
    ∃ key, keys.get? m = some key ∧
      (deleteItemsAux env send j keys).2 = .error (.deleteFailed key) := by
  induction keys with
  | nil => intro j m hm _ _; simp at hm
  | cons key rest ih =>
    intro j m hm hok hfail
    cases m with
    | zero =>
      simp only [Nat.add_zero] at hfail
      simp only [deleteItemsAux, hT, if_pos hfail]
      exact ⟨by simp, key, rfl, rfl⟩
    | succ p =>
      have h0 := hok 0 (Nat.succ_pos p)
      simp only [Nat.add_zero] at h0
      have hp : p < rest.length := by simpa using Nat.lt_of_succ_lt_succ hm
      have hok' : ∀ q, q < p →
          (send (j + 1 + q)).metadata.httpStatusCode = some 200 := by
        intro q hq
        have heq : j + 1 + q = j + (q + 1) := by omega
        rw [heq]
        exact hok (q + 1) (by omega)
      have hfail' : (send (j + 1 + p)).metadata.httpStatusCode ≠ some 200 := by
        have heq : j + 1 + p = j + (p + 1) := by omega
        rw [heq]
        exact hfail
      obtain ⟨h1, key', hk', h2⟩ := ih (j + 1) p hp hok' hfail'
      simp only [deleteItemsAux, hT, h0, ne_eq, not_true_eq_false, if_false,
        reduceIte]
      exact ⟨by simp [h1], key', by simpa using hk', by simpa using h2⟩

theorem deleteItemsAux_error_iff (env : Env) (tn : String)
    (hT : getRequiredEnvironmentVariable env "TABLE_NAME" = .ok tn)
    (send : Nat → DeleteResponse) (keys : List ItemKey) : ∀ j : Nat,
    ((∃ e, (deleteItemsAux env send j keys).2 = .error e) ↔
      ∃ m, m < keys.length ∧ (send (j + m)).metadata.httpStatusCode ≠ some 200) := by
  induction keys with
  | nil =>
    intro j
    simp [deleteItemsAux]
  | cons key rest ih =>
    intro j
    by_cases h0 : (send j).metadata.httpStatusCode = some 200
    · simp only [deleteItemsAux, hT, h0, ne_eq, not_true_eq_false, if_false,
        reduceIte]
      rw [ih (j + 1)]
      constructor
      · rintro ⟨m, hm, hne⟩
        refine ⟨m + 1, by simpa using Nat.succ_lt_succ hm, ?_⟩
        have heq : j + (m + 1) = j + 1 + m := by omega
        rw [heq]
        exact hne
      · rintro ⟨m, hm, hne⟩
        cases m with
        | zero => simp only [Nat.add_zero] at hne; exact absurd h0 hne
        | succ p =>
          refine ⟨p, by simpa using Nat.lt_of_succ_lt_succ hm, ?_⟩
          have heq : j + 1 + p = j + (p + 1) := by omega
          rw [heq]
          exact hne
    · simp only [deleteItemsAux, hT, if_pos h0]
      constructor
      · intro _
        exact ⟨0, by simp, by simpa using h0⟩
      · intro _
        exact ⟨.deleteFailed key, rfl⟩

/-- C3: the deleter issues one delete per key, in the scanner's order —
when every response succeeds the issued-request trace is exactly the key
list; when the k-th response is the first non-success, the trace is
exactly the first k keys (so deletes k+1 through N are never attempted,
and the earlier deletes stand un-rolled-back) and the failure propagates
as an error carrying the failed key. -/
theorem deleteItems_sequential_stop_on_failure (env : Env) (tn : String)
    (hT : getRequiredEnvironmentVariable env "TABLE_NAME" = .ok tn)
    (send : Nat → DeleteResponse) (keys : List ItemKey) :
    ((∀ j, j < keys.length → (send j).metadata.httpStatusCode = some 200) →
      deleteItems env send keys = (keys, .ok ())) ∧
    (∀ k, 0 < k → k ≤ keys.length →
      (∀ j, j < k - 1 → (send j).metadata.httpStatusCode = some 200) →
      (send (k - 1)).metadata.httpStatusCode ≠ some 200 →
      (deleteItems env send keys).1 = keys.take k ∧
      ∃ key, keys.get? (k - 1) = some key ∧
        (deleteItems env send keys).2 = .error (.deleteFailed key)) := by
  constructor
  · intro h
    exact deleteItemsAux_all_ok env tn hT send keys 0
      (fun m hm => by simpa using h m hm)
  · intro k hk1 hk2 hok hfail
    have hres := deleteItemsAux_fail env tn hT send keys 0 (k - 1) (by omega)
      (fun p hp => by simpa using hok p hp) (by simpa using hfail)
    rwa [show k - 1 + 1 = k by omega] at hres

theorem deleteItems_sequential_stop_on_failure_witness :
    (∀ j, j < ([] : List ItemKey).length →
      (deleteFailAt1 j).metadata.httpStatusCode = some 200) ∧
    (0 : Nat) < 2 ∧ 2 ≤ keys3.length ∧
    (∀ j, j < 2 - 1 → (deleteFailAt1 j).metadata.httpStatusCode = some 200) ∧
    (deleteFailAt1 (2 - 1)).metadata.httpStatusCode ≠ some 200 ∧
    (deleteItems envA deleteFailAt1 keys3).1 = keys3.take 2 ∧
    ∃ key, keys3.get? (2 - 1) = some key ∧
      (deleteItems envA deleteFailAt1 keys3).2 = .error (.deleteFailed key) :=
  ⟨by decide, by decide, by decide, by decide, by decide,
   (deleteItems_sequential_stop_on_failure envA "ddb" rfl deleteFailAt1 keys3).2
     2 (by decide) (by decide) (by decide) (by decide)⟩

/-- C6: with the configuration present, the scan raises an error exactly
when the store's response status is not 200 (and that error is the fatal
scan failure), the deleter's batch raises an error exactly when some
issued delete got a non-200 response, and a cycle that raises an error
stops the orchestration loop with that error. -/
theorem nonsuccess_response_raises_iff (env : Env) (tn a : String)
    (hT : getRequiredEnvironmentVariable env "TABLE_NAME" = .ok tn)
    (hA : getRequiredEnvironmentVariable env "TTL_ATTRIBUTE" = .ok a)
    (keySchema : KeySchema) (now : Int) (send : ScanRequest → ScanResponse)
    (dsend : Nat → DeleteResponse) (keys : List ItemKey) :
    ((∃ e, getExpiredItemKeys env keySchema now send = .error e) ↔
      (send (builtScanRequest tn a now)).metadata.httpStatusCode ≠ some 200) ∧
    ((send (builtScanRequest tn a now)).metadata.httpStatusCode ≠ some 200 →
      getExpiredItemKeys env keySchema now send = .error .scanFailed) ∧
    ((∃ e, (deleteItems env dsend keys).2 = .error e) ↔
      ∃ m, m < keys.length ∧ (dsend m).metadata.httpStatusCode ≠ some 200) ∧
    (∀ (o : CycleOracle) (os : List CycleOracle) (ks : KeySchema) (e : AppError),
      (runCycle env ks o).2 = .error e →
      runCycles env ks (o :: os) = ((runCycle env ks o).1, .error e)) := by
  refine ⟨?_, ?_, ?_, ?_⟩
  · by_cases hs : (send (builtScanRequest tn a now)).metadata.httpStatusCode = some 200
    · simp only [getExpiredItemKeys, hT, hA, hs, ne_eq, not_true_eq_false,
        if_false, reduceIte]
      constructor
      · rintro ⟨e, he⟩
        cases hI : (send (builtScanRequest tn a now)).Items with
        | none => rw [hI] at he; exact Except.noConfusion he
        | some items => rw [hI] at he; exact Except.noConfusion he
      · intro hne
        exact hne.elim
    · simp only [getExpiredItemKeys, hT, hA, if_pos hs]
      exact ⟨fun _ => hs, fun _ => ⟨.scanFailed, rfl⟩⟩
  · intro hs
    simp only [getExpiredItemKeys, hT, hA, if_pos hs]
  · simpa [deleteItems] using deleteItemsAux_error_iff env tn hT dsend keys 0
  · intro o os ks e he
    simp only [runCycles, he]

theorem nonsuccess_response_raises_iff_witness :
    getRequiredEnvironmentVariable envA "TABLE_NAME" = .ok "ddb" ∧
    getRequiredEnvironmentVariable envA "TTL_ATTRIBUTE" = .ok "Expires" ∧
    ((∃ e, getExpiredItemKeys envA ksId 2000 scanSend500 = .error e) ↔
      (scanSend500 (builtScanRequest "ddb" "Expires" 2000)).metadata.httpStatusCode ≠
        some 200) ∧
    ((scanSend500 (builtScanRequest "ddb" "Expires" 2000)).metadata.httpStatusCode ≠
        some 200 →
      getExpiredItemKeys envA ksId 2000 scanSend500 = .error .scanFailed) ∧
    ((∃ e, (deleteItems envA deleteFailAt1 keys3).2 = .error e) ↔
      ∃ m, m < keys3.length ∧
        (deleteFailAt1 m).metadata.httpStatusCode ≠ some 200) ∧
    (∀ (o : CycleOracle) (os : List CycleOracle) (ks : KeySchema) (e : AppError),
      (runCycle envA ks o).2 = .error e →
      runCycles envA ks (o :: os) = ((runCycle envA ks o).1, .error e)) :=
  ⟨rfl, rfl,
   nonsuccess_response_raises_iff envA "ddb" "Expires" rfl rfl ksId 2000
     scanSend500 deleteFailAt1 keys3⟩

theorem getTableKeySchema_ok_env (env : Env)
    (resp : Except AppError DescribeTableResponse) (ks : KeySchemaDraft)
    (h : getTableKeySchema env resp = .ok ks) :
    ∃ tn, getRequiredEnvironmentVariable env "TABLE_NAME" = .ok tn := by
  cases hE : getRequiredEnvironmentVariable env "TABLE_NAME" with
  | error e =>
    simp only [getTableKeySchema, hE] at h
    exact Except.noConfusion h
  | ok tn => exact ⟨tn, rfl⟩

theorem getTableKeySchema_notFound (env : Env) (tn : String)
    (hT : getRequiredEnvironmentVariable env "TABLE_NAME" = .ok tn) :
    getTableKeySchema env (.error .resourceNotFound) =
      .error .resourceNotFound := by
  simp [getTableKeySchema, hT]

/-- C5: during resolution, any number of not-found responses is absorbed
by retrying (one sleep each) and the loop resolves at the first response
on which the describe succeeds; any resolution failure other than
resource-not-found is fatal immediately, with no retry. -/
theorem resolve_retries_notFound_until_success (env : Env) (k : Nat)
    (resp : Except AppError DescribeTableResponse)
    (rest : List (Except AppError DescribeTableResponse)) (ks : KeySchemaDraft)
    (h : getTableKeySchema env resp = .ok ks) :
    resolveLoop env
        (List.replicate k (.error .resourceNotFound) ++ resp :: rest) =
      ((List.replicate k [Event.describe, Event.sleepEv]).flatten ++
        [Event.describe], .resolved ks) ∧
    (∀ resp' rest' e, getTableKeySchema env resp' = .error e →
      e ≠ AppError.resourceNotFound →
      resolveLoop env (resp' :: rest') = ([Event.describe], .fatal e)) := by
  obtain ⟨tn, hT⟩ := getTableKeySchema_ok_env env resp ks h
  have hnf := getTableKeySchema_notFound env tn hT
  constructor
  · induction k with
    | zero => simp [resolveLoop, h]
    | succ n ihn =>
      simp only [List.replicate_succ, List.cons_append, resolveLoop, hnf]
      simp [ihn, List.flatten]
  · intro resp' rest' e he hne
    cases e <;> simp_all [resolveLoop]

theorem resolve_retries_notFound_until_success_witness :
    getTableKeySchema envA (.ok compositeResponse) =
      .ok { hash := some "id", range := some "ts" } ∧
    (resolveLoop envA
        (List.replicate 2 (.error .resourceNotFound) ++
          .ok compositeResponse :: []) =
      ((List.replicate 2 [Event.describe, Event.sleepEv]).flatten ++
        [Event.describe],
        .resolved { hash := some "id", range := some "ts" }) ∧
    (∀ resp' rest' e, getTableKeySchema envA resp' = .error e →
      e ≠ AppError.resourceNotFound →
      resolveLoop envA (resp' :: rest') = ([Event.describe], .fatal e))) :=
  ⟨rfl, resolve_retries_notFound_until_success envA 2 (.ok compositeResponse)
    [] { hash := some "id", range := some "ts" } rfl⟩

/-- C9: a successful describe whose table declares no key schema raises
the distinct no-key-schema error, which is not the not-found error, so
the resolution loop treats it as fatal instead of retrying. -/
theorem no_key_schema_fatal_not_retried (env : Env) (tn : String)
    (hT : getRequiredEnvironmentVariable env "TABLE_NAME" = .ok tn)
    (resp : DescribeTableResponse) (tbl : TableDescription)
    (hs : resp.metadata.httpStatusCode = some 200)
    (ht : resp.Table = some tbl) (hk : tbl.KeySchema = none)
    (rest : List (Except AppError DescribeTableResponse)) :
    getTableKeySchema env (.ok resp) = .error .noKeySchema ∧
    AppError.noKeySchema ≠ AppError.resourceNotFound ∧
    resolveLoop env (.ok resp :: rest) =
      ([Event.describe], .fatal .noKeySchema) := by
  have h1 : getTableKeySchema env (.ok resp) = .error .noKeySchema := by
    simp [getTableKeySchema, hT, hs, ht, hk]
  exact ⟨h1, by decide, by simp [resolveLoop, h1]⟩

theorem no_key_schema_fatal_not_retried_witness :
    getRequiredEnvironmentVariable envA "TABLE_NAME" = .ok "ddb" ∧
    noSchemaResponse.metadata.httpStatusCode = some 200 ∧
    noSchemaResponse.Table =
      some { KeySchema := none, AttributeDefinitions := some [] } ∧
    (getTableKeySchema envA (.ok noSchemaResponse) = .error .noKeySchema ∧
    AppError.noKeySchema ≠ AppError.resourceNotFound ∧
    resolveLoop envA [.ok noSchemaResponse] =
      ([Event.describe], .fatal .noKeySchema)) :=
  ⟨rfl, rfl, rfl,
   no_key_schema_fatal_not_retried envA "ddb" rfl noSchemaResponse
     { KeySchema := none, AttributeDefinitions := some [] } rfl rfl rfl []⟩

theorem hasTypedDef_iff (defs : Option (List AttributeDefinition))
    (e : KeySchemaElement) :
    hasTypedDef defs e = true ↔
    ∃ d t, findAttributeDefinition defs e.AttributeName = some d ∧
      d.AttributeType = some t ∧ t ≠ "" := by
  unfold hasTypedDef
  cases hfind : findAttributeDefinition defs e.AttributeName with
  | none => simp
  | some d =>
    cases htype : d.AttributeType with
    | none => simp [htype]
    | some t => simp [htype]

theorem classifyEntry_hash_isSome (defs : Option (List AttributeDefinition))
    (acc : KeySchemaDraft) (e : KeySchemaElement)
    (h : acc.hash.isSome = true) :
    ((classifyEntry defs acc e).hash).isSome = true := by
  unfold classifyEntry
  repeat' split
  all_goals simp [h]

theorem classifyEntry_range_isSome (defs : Option (List AttributeDefinition))
    (acc : KeySchemaDraft) (e : KeySchemaElement)
    (h : acc.range.isSome = true) :
    ((classifyEntry defs acc e).range).isSome = true := by
  unfold classifyEntry
  repeat' split
  all_goals simp [h]

theorem classifyEntry_sets_hash (defs : Option (List AttributeDefinition))
    (acc : KeySchemaDraft) (e : KeySchemaElement)
    (hd : hasTypedDef defs e = true) (hH : e.KeyType = "HASH") :
    (classifyEntry defs acc e).hash = some e.AttributeName := by
  obtain ⟨d, t, hfind, htype, hne⟩ := (hasTypedDef_iff defs e).mp hd
  simp only [classifyEntry, hfind, htype, if_neg hne, if_pos hH]

theorem classifyEntry_sets_range (defs : Option (List AttributeDefinition))
    (acc : KeySchemaDraft) (e : KeySchemaElement)
    (hd : hasTypedDef defs e = true) (hR : e.KeyType = "RANGE") :
    (classifyEntry defs acc e).range = some e.AttributeName := by
  obtain ⟨d, t, hfind, htype, hne⟩ := (hasTypedDef_iff defs e).mp hd
  have hnH : ¬ e.KeyType = "HASH" := by simp [hR]
  simp only [classifyEntry, hfind, htype, if_neg hne, if_neg hnH, if_pos hR]

theorem classifyEntry_range_pres (defs : Option (List AttributeDefinition))
    (acc : KeySchemaDraft) (e : KeySchemaElement)
    (h : e.KeyType ≠ "RANGE") :
    (classifyEntry defs acc e).range = acc.range := by
  unfold classifyEntry
  repeat' split
  all_goals simp_all

theorem foldl_hash_isSome (defs : Option (List AttributeDefinition))
    (entries : List KeySchemaElement) : ∀ acc : KeySchemaDraft,
    (acc.hash.isSome = true ∨
      ∃ e ∈ entries, e.KeyType = "HASH" ∧ hasTypedDef defs e = true) →
    ((entries.foldl (classifyEntry defs) acc).hash).isSome = true := by
  induction entries with
  | nil =>
    intro acc h
    rcases h with h | ⟨e, he, _⟩
    · simpa using h
    · exact absurd he (List.not_mem_nil e)
  | cons e rest ih =>
    intro acc h
    rw [List.foldl_cons]
    rcases h with h | ⟨e', he', hH, hd⟩
    · exact ih _ (Or.inl (classifyEntry_hash_isSome defs acc e h))
    · rcases List.mem_cons.mp he' with rfl | hmem
      · refine ih _ (Or.inl ?_)
        rw [classifyEntry_sets_hash defs acc e' hd hH]
        rfl
      · exact ih _ (Or.inr ⟨e', hmem, hH, hd⟩)

theorem foldl_range_isSome (defs : Option (List AttributeDefinition))
    (entries : List KeySchemaElement) : ∀ acc : KeySchemaDraft,
    (acc.range.isSome = true ∨
      ∃ e ∈ entries, e.KeyType = "RANGE" ∧ hasTypedDef defs e = true) →
    ((entries.foldl (classifyEntry defs) acc).range).isSome = true := by
  induction entries with
  | nil =>
    intro acc h
    rcases h with h | ⟨e, he, _⟩
    · simpa using h
    · exact absurd he (List.not_mem_nil e)
  | cons e rest ih =>
    intro acc h
    rw [List.foldl_cons]
    rcases h with h | ⟨e', he', hR, hd⟩
    · exact ih _ (Or.inl (classifyEntry_range_isSome defs acc e h))
    · rcases List.mem_cons.mp he' with rfl | hmem
      · refine ih _ (Or.inl ?_)
        rw [classifyEntry_sets_range defs acc e' hd hR]
        rfl
      · exact ih _ (Or.inr ⟨e', hmem, hR, hd⟩)

theorem foldl_range_none (defs : Option (List AttributeDefinition))
    (entries : List KeySchemaElement) : ∀ acc : KeySchemaDraft,
    (∀ e ∈ entries, e.KeyType ≠ "RANGE") →
    (entries.foldl (classifyEntry defs) acc).range = acc.range := by
  induction entries with
  | nil => intro acc _; rfl
  | cons e rest ih =>
    intro acc h
    rw [List.foldl_cons, ih _ (fun x hx => h x (List.mem_cons_of_mem e hx)),
      classifyEntry_range_pres defs acc e (h e (List.mem_cons_self e rest))]

/-- C2 counterexample: a successful (status 200) describe whose table
carries an empty key-schema list resolves successfully to a descriptor
with no partition attribute at all — the claim that every successful
resolution yields a present partition attribute fails on the code (the
source casts a `Partial<KeySchema>` to `KeySchema`). -/
theorem keySchema_resolution_missing_partition_cex :
    getTableKeySchema envA (.ok emptySchemaResponse) =
      .ok { hash := none, range := none } := rfl

/-- C2 amended: for a successful describe whose key-schema entries are
classifiable — it contains a `HASH` entry with a usable attribute
definition, and for a composite key also a `RANGE` entry with one — the
resolved descriptor has the partition attribute present, the sort
attribute present exactly in the composite case, and absent when no
`RANGE` entry exists; moreover the resolution phase of `main` performs no
scan, and a scan event can occur in a run only after resolution
succeeded. -/
theorem keySchema_resolution_wellformed (env : Env) (tn : String)
    (hT : getRequiredEnvironmentVariable env "TABLE_NAME" = .ok tn)
    (resp : DescribeTableResponse) (tbl : TableDescription)
    (entries : List KeySchemaElement)
    (hs : resp.metadata.httpStatusCode = some 200)
    (ht : resp.Table = some tbl) (hk : tbl.KeySchema = some entries) :
    (∃ d : KeySchemaDraft,
      getTableKeySchema env (.ok resp) = .ok d ∧
      ((∃ e ∈ entries, e.KeyType = "HASH" ∧
          hasTypedDef tbl.AttributeDefinitions e = true) →
        d.hash.isSome = true) ∧
      ((∃ e ∈ entries, e.KeyType = "RANGE" ∧
          hasTypedDef tbl.AttributeDefinitions e = true) →
        d.range.isSome = true) ∧
      ((∀ e ∈ entries, e.KeyType ≠ "RANGE") → d.range = none)) ∧
    (∀ (rs : List (Except AppError DescribeTableResponse))
        (cycles : List CycleOracle),
      Event.scan ∉ (resolveLoop env rs).1 ∧
      (Event.scan ∈ (mainRun env rs cycles).1 →
        ∃ d, (resolveLoop env rs).2 = .resolved d)) := by
  constructor
  · refine ⟨entries.foldl (classifyEntry tbl.AttributeDefinitions)
      { hash := none, range := none }, ?_, ?_, ?_, ?_⟩
    · simp [getTableKeySchema, hT, hs, ht, hk]
    · intro hex
      exact foldl_hash_isSome tbl.AttributeDefinitions entries _ (Or.inr hex)
    · intro hex
      exact foldl_range_isSome tbl.AttributeDefinitions entries _ (Or.inr hex)
    · intro hall
      exact foldl_range_none tbl.AttributeDefinitions entries _ hall
  · intro rs cycles
    refine ⟨resolveLoop_no_scan env rs, ?_⟩
    intro hscan
    rcases hr : resolveLoop env rs with ⟨evs, out⟩
    cases out with
    | resolved d => exact ⟨d, rfl⟩
    | fatal e =>
      have hns := resolveLoop_no_scan env rs
      rw [hr] at hns
      simp only [mainRun, hr] at hscan
      exact absurd hscan hns
    | pending =>
      have hns := resolveLoop_no_scan env rs
      rw [hr] at hns
      simp only [mainRun, hr] at hscan
      exact absurd hscan hns

theorem keySchema_resolution_wellformed_witness :
    getRequiredEnvironmentVariable envA "TABLE_NAME" = .ok "ddb" ∧
    compositeResponse.metadata.httpStatusCode = some 200 ∧
    compositeResponse.Table = some compositeTbl ∧
    compositeTbl.KeySchema = some compositeEntries ∧
    ((∃ d : KeySchemaDraft,
      getTableKeySchema envA (.ok compositeResponse) = .ok d ∧
      ((∃ e ∈ compositeEntries, e.KeyType = "HASH" ∧
          hasTypedDef compositeTbl.AttributeDefinitions e = true) →
        d.hash.isSome = true) ∧
      ((∃ e ∈ compositeEntries, e.KeyType = "RANGE" ∧
          hasTypedDef compositeTbl.AttributeDefinitions e = true) →
        d.range.isSome = true) ∧
      ((∀ e ∈ compositeEntries, e.KeyType ≠ "RANGE") → d.range = none)) ∧
    (∀ (rs : List (Except AppError DescribeTableResponse))
        (cycles : List CycleOracle),
      Event.scan ∉ (resolveLoop envA rs).1 ∧
      (Event.scan ∈ (mainRun envA rs cycles).1 →
        ∃ d, (resolveLoop envA rs).2 = .resolved d))) :=
  ⟨rfl, rfl, rfl, rfl,
   keySchema_resolution_wellformed envA "ddb" rfl compositeResponse
     compositeTbl compositeEntries rfl rfl rfl⟩

/-- C8: a cycle whose honest store contains no expired item produces an
empty scan result, treated as nothing-to-delete: the cycle succeeds with
no delete event, and the loop proceeds to the next cycle. -/
theorem empty_scan_zero_deletes_next_cycle (env : Env) (tn a : String)
    (hT : getRequiredEnvironmentVariable env "TABLE_NAME" = .ok tn)
    (hA : getRequiredEnvironmentVariable env "TTL_ATTRIBUTE" = .ok a)
    (keySchema : KeySchema) (table : List Item) (now : Int)
    (h : ∀ i ∈ table, ttlExpired a now i = false)
    (dsend : Nat → DeleteResponse) (os : List CycleOracle) :
    runCycle env keySchema ⟨now, honestScanSend table, dsend⟩ =
      ([Event.scan], .ok ()) ∧
    (∀ ev ∈ (runCycle env keySchema ⟨now, honestScanSend table, dsend⟩).1,
      ∀ key, ev ≠ Event.deleteReq key) ∧
    runCycles env keySchema (⟨now, honestScanSend table, dsend⟩ :: os) =
      (Event.scan :: Event.sleepEv :: (runCycles env keySchema os).1,
        (runCycles env keySchema os).2) := by
  have hf : table.filter (ttlExpired a now) = [] :=
    List.filter_eq_nil_iff.mpr (fun i hi => by simp [h i hi])
  have hscan : getExpiredItemKeys env keySchema now (honestScanSend table) =
      .ok (some []) := by
    rw [getExpiredItemKeys_honest env tn a hT hA, hf]
    rfl
  have h1 : runCycle env keySchema ⟨now, honestScanSend table, dsend⟩ =
      ([Event.scan], .ok ()) := by
    simp [runCycle, hscan, deleteItems, deleteItemsAux]
  refine ⟨h1, ?_, ?_⟩
  · rw [h1]
    intro ev hev key
    simp only [List.mem_singleton] at hev
    subst hev
    simp
  · simp [runCycles, h1]

theorem empty_scan_zero_deletes_next_cycle_witness :
    getRequiredEnvironmentVariable envA "TABLE_NAME" = .ok "ddb" ∧
    getRequiredEnvironmentVariable envA "TTL_ATTRIBUTE" = .ok "Expires" ∧
    (∀ i ∈ tableB, ttlExpired "Expires" 2000 i = false) ∧
    (runCycle envA ksId ⟨2000, honestScanSend tableB, deleteOk⟩ =
      ([Event.scan], .ok ()) ∧
    (∀ ev ∈ (runCycle envA ksId ⟨2000, honestScanSend tableB, deleteOk⟩).1,
      ∀ key, ev ≠ Event.deleteReq key) ∧
    runCycles envA ksId (⟨2000, honestScanSend tableB, deleteOk⟩ :: []) =
      (Event.scan :: Event.sleepEv :: (runCycles envA ksId []).1,
        (runCycles envA ksId []).2)) :=
  ⟨rfl, rfl, by decide,
   empty_scan_zero_deletes_next_cycle envA "ddb" "Expires" rfl rfl ksId
     tableB 2000 (by decide) deleteOk []⟩

end LocalDynamoTTL
